import Mathlib

/-!
Shallow embedding of `holidays.py` (module Holiday): a single class
computing German public holidays for a year and state via the
Gauss/Lichtenberg Easter algorithm, plus a working-day count.

Conventions of the embedding:
* A Python `datetime.date` is a `Date` record of year/month/day (proleptic
  Gregorian).  `toordinal` mirrors `date.toordinal` (Jan 1 of year 1 is
  ordinal 1) and `isoweekday` mirrors `date.isoweekday` (Mon = 1 .. Sun = 7).
* `timedelta` arithmetic on valid dates is day-stepping (`addDays`/`subDays`).
* Python integer `//` and `%` with a positive divisor are floor division and
  a remainder in `[0, divisor)`; on `Int` these are exactly `/` (`Int.ediv`)
  and `%` (`Int.emod`), since every divisor in the algorithm is positive.
* The dict `self._holidays` is a list of (name, date) pairs in insertion
  order; all keys inserted are distinct (for the key assigned inside a loop,
  `repentance and prayer`, we prove the loop fires exactly once), so
  first-match lookup agrees with dict semantics.
-/

/-- Gregorian leap year test.  The Python source detects leap years by
attempting to construct `date(year, 2, 29)`; constructing that date succeeds
exactly when this predicate holds. -/
def isLeap (y : Nat) : Bool :=
  y % 4 == 0 && (y % 100 != 0 || y % 400 == 0)

/-- Length of a month in the proleptic Gregorian calendar. -/
def daysInMonth (y m : Nat) : Nat :=
  if m = 2 then (if isLeap y then 29 else 28)
  else if m = 4 ∨ m = 6 ∨ m = 9 ∨ m = 11 then 30
  else 31

/-- A calendar date, as Python `datetime.date` (year, month, day). -/
structure Date where
  year : Nat
  month : Nat
  day : Nat
deriving DecidableEq, Repr

/-- Number of days in the years strictly before year `y` (Gregorian). -/
def daysBeforeYear (y : Nat) : Nat :=
  365 * (y - 1) + (y - 1) / 4 - (y - 1) / 100 + (y - 1) / 400

/-- Number of days in the months of year `y` strictly before month `m`. -/
def daysBeforeMonth (y m : Nat) : Nat :=
  ((List.range (m - 1)).map (fun i => daysInMonth y (i + 1))).sum

/-- Python `date.toordinal`: day count with Jan 1 of year 1 as day 1. -/
def toordinal (d : Date) : Nat :=
  daysBeforeYear d.year + daysBeforeMonth d.year d.month + d.day

/-- Python `date.isoweekday`: Monday = 1, ..., Sunday = 7. -/
def isoweekday (d : Date) : Nat :=
  (toordinal d - 1) % 7 + 1

/-- Successor date (one day later), for valid Gregorian dates. -/
def nextDay (d : Date) : Date :=
  if d.day < daysInMonth d.year d.month then ⟨d.year, d.month, d.day + 1⟩
  else if d.month < 12 then ⟨d.year, d.month + 1, 1⟩
  else ⟨d.year + 1, 1, 1⟩

/-- Predecessor date (one day earlier), for valid Gregorian dates. -/
def prevDay (d : Date) : Date :=
  if 1 < d.day then ⟨d.year, d.month, d.day - 1⟩
  else if 1 < d.month then ⟨d.year, d.month - 1, daysInMonth d.year (d.month - 1)⟩
  else ⟨d.year - 1, 12, 31⟩

/-- Python `d + timedelta(days=k)` for a valid date `d` and `k ≥ 0`. -/
def addDays (d : Date) : Nat → Date
  | 0 => d
  | k + 1 => addDays (nextDay d) k

/-- Python `d - timedelta(days=k)` for a valid date `d` and `k ≥ 0`. -/
def subDays (d : Date) : Nat → Date
  | 0 => d
  | k + 1 => subDays (prevDay d) k

/-- The March-relative day number `os` of Easter Sunday computed by
`Holidays.get_easter_sunday` (Gauss/Lichtenberg).  All intermediate names
(`k`, `m`, `s`, `a`, `d`, `r`, `og`, `sz`, `oe`, `os`) are those of the
source; every division and remainder has a positive divisor, so Python
`//` and `%` are `Int` `/` and `%`. -/
def easterOs (year : Nat) : Int :=
  let x : Int := year
  let k := x / 100
  let m := 15 + (3 * k + 3) / 4 - (8 * k + 13) / 25
  let s := 2 - (3 * k + 3) / 4
  let a := x % 19
  let d := (19 * a + m) % 30
  let r := (d + a / 11) / 29
  let og := 21 + d - r
  let sz := 7 - (x + x / 4 + s) % 7
  let oe := 7 - (og - sz) % 7
  og + oe

/-- Date of Easter Sunday, `Holidays.get_easter_sunday`.  The source
returns `date(year, 4, os - 31)` when `os > 31` and `date(year, 3, os)`
otherwise. -/
def get_easter_sunday (year : Nat) : Date :=
  let os := easterOs year
  if os > 31 then ⟨year, 4, (os - 31).toNat⟩ else ⟨year, 3, os.toNat⟩

theorem easterOs_bounds (year : Nat) : 22 ≤ easterOs year ∧ easterOs year ≤ 57 := by
  unfold easterOs
  dsimp only
  have hx : (0 : Int) ≤ (year : Int) := Int.ofNat_nonneg year
  omega

/-- The 16 state codes accepted by `Holidays.__init__`, in source order. -/
def validStateCodes : List String :=
  ["BW", "BY", "BE", "BB", "HB", "HH", "HE", "MV", "NI", "NW", "RP", "SL",
   "SN", "ST", "SH", "TH"]

/-- Uppercasing of a string, modelling Python `str.upper` on ASCII input
(for code points below 128 Python uppercases character-wise, exactly this
map).  Python additionally applies Unicode full case mappings that this
model does not cover — e.g. dotless ı becomes I, long ſ becomes S, ß
becomes SS — so a few non-ASCII strings normalize into valid codes in
Python but not here; theorems about state validation therefore restrict
the state argument to ASCII.  Defined structurally over the character
list (extensionally the same as `String.toUpper`). -/
def pyUpper (s : String) : String := ⟨s.data.map Char.toUpper⟩

/-- Python `self.state = state.upper() if state else None`: a missing or empty
(falsy) state becomes `None`; otherwise the state is upper-cased. -/
def normState (state : Option String) : Option String :=
  match state with
  | none => none
  | some s => if s = "" then none else some (pyUpper s)

/-- The loop adding `repentance and prayer`: for each day 16..22 of
November, insert the date when its weekday is Wednesday (`isoweekday == 3`).
In the dict this key is written at most once per hit; as a list we keep
every hit in loop order (we prove there is exactly one). -/
def repentanceEntries (year : Nat) : List (String × Date) :=
  (List.range 7).filterMap (fun i =>
    if isoweekday ⟨year, 11, 16 + i⟩ = 3
    then some ("repentance and prayer", ⟨year, 11, 16 + i⟩)
    else none)

/-- The dict `self._holidays` built by `Holidays.__init__` after state
normalization and validation, in insertion order: first the nine common
holidays, then the state-conditional ones guarded exactly as in the source
(`st` is the already-normalized state, so `none` adds no state holiday). -/
def buildHolidays (year : Nat) (st : Option String) : List (String × Date) :=
  let easter_sunday := get_easter_sunday year
  let common : List (String × Date) :=
    [("new year", ⟨year, 1, 1⟩),
     ("labor day", ⟨year, 5, 1⟩),
     ("german unification day", ⟨year, 10, 3⟩),
     ("first christmas holiday", ⟨year, 12, 25⟩),
     ("second christmas holiday", ⟨year, 12, 26⟩),
     ("good friday", subDays easter_sunday 2),
     ("easter monday", addDays easter_sunday 1),
     ("ascention", addDays easter_sunday 39),
     ("whit monday", addDays easter_sunday 50)]
  let stateRelated : List (String × Date) :=
    match st with
    | none => []
    | some s =>
      (if s ∈ ["BY", "BW", "ST"] then [("epiphany", ⟨year, 1, 6⟩)] else []) ++
      (if s ∈ ["BE"] then [("womens day", ⟨year, 3, 8⟩)] else []) ++
      (if s ∈ ["BB"] then [("easter sunday", easter_sunday)] else []) ++
      (if s ∈ ["BB"] then [("whit_sunday", addDays easter_sunday 49)] else []) ++
      (if s ∈ ["BY", "SL"] then [("assumption", ⟨year, 8, 15⟩)] else []) ++
      (if s ∈ ["BB", "HB", "HH", "MV", "NI", "SN", "ST", "SH", "TH"]
       then [("reformation day", ⟨year, 10, 31⟩)] else []) ++
      (if s ∈ ["BW", "BY", "NW", "RP", "SL"]
       then [("all saints", ⟨year, 11, 1⟩)] else []) ++
      (if s ∈ ["SN"] then repentanceEntries year else []) ++
      (if s ∈ ["BW", "BY", "HE", "NW", "RP", "SL"]
       then [("corpus christi", addDays easter_sunday 60)] else [])
  common ++ stateRelated

/-- Constructor `Holidays(year, state)`: normalize the state, raise
`UnknownStateCodeException` (modelled as `Except.error ()`) when a non-falsy
normalized state is not a valid code, otherwise build the holiday dict.
The dict is only built after validation, so an error produces no partial
set. -/
def mkHolidays (year : Nat) (state : Option String) : Except Unit (List (String × Date)) :=
  match normState state with
  | none => .ok (buildHolidays year none)
  | some s =>
    if s ∈ validStateCodes then .ok (buildHolidays year (some s))
    else .error ()

/-- Dict lookup by key (first match; all keys in a built dict are shown to
be distinct). -/
def lookupHoliday (hs : List (String × Date)) (name : String) : Option Date :=
  (hs.find? (fun p => p.1 == name)).map Prod.snd

/-- Membership test by holiday name, `Holidays.__contains__`. -/
def containsHoliday (hs : List (String × Date)) (name : String) : Bool :=
  hs.any (fun p => p.1 == name)

set_option linter.unusedVariables false in
/-- Indexing accessor `Holidays.__getitem__`.  The source reads
`return self._holidays["item"]` with a quoted key — it looks up the literal
string `item` (a `KeyError`, that is `none`, for every built dict) instead of
the argument. -/
def getitemHoliday (hs : List (String × Date)) ( item : String) : Option Date :=
  lookupHoliday hs "item"

/-- All holiday dates (the dict values) in insertion order,
`Holidays.get_all`. -/
def get_all (hs : List (String × Date)) : List Date :=
  hs.map Prod.snd

/-- Working-day count `Holidays.get_working_days`: start from 261; subtract one when Jan 1 is
a weekend day; add one when `date(year, 2, 29)` constructs (leap year) and
Dec 31 is not a weekend day; finally subtract one for every holiday date
whose weekday is Mon..Fri.  (`if holiday and ...`: a date object is always
truthy.) -/
def get_working_days (year : Nat) (hs : List (String × Date)) : Int :=
  let w1 : Int := 261
  let w2 := if isoweekday ⟨year, 1, 1⟩ ≥ 6 then w1 - 1 else w1
  let w3 := if 29 ≤ daysInMonth year 2 ∧ isoweekday ⟨year, 12, 31⟩ < 6
            then w2 + 1 else w2
  w3 - ((get_all hs).filter (fun d => isoweekday d < 6)).length

/-- Base of the working-day count before holidays are subtracted: 261,
minus one when Jan 1 is a weekend day, plus one when the year is leap and
Dec 31 is a weekday (the first two steps of `get_working_days`). -/
def baseWorkdays (year : Nat) : Int :=
  let w1 : Int := 261
  let w2 := if isoweekday ⟨year, 1, 1⟩ ≥ 6 then w1 - 1 else w1
  if 29 ≤ daysInMonth year 2 ∧ isoweekday ⟨year, 12, 31⟩ < 6 then w2 + 1 else w2

/-- Modelled from the spec wording of the working-day algorithm: start from
261; subtract 1 if January 1 falls on Saturday or Sunday; add 1 if the year
is a leap year (explicit predicate `year mod 4 = 0 and (year mod 100 != 0 or
year mod 400 = 0)`) and December 31 falls on a weekday (Mon-Fri); then
subtract 1 for every holiday in the set whose date falls on a weekday. -/
def specWorkingDays (year : Nat) (hs : List (String × Date)) : Int :=
  261
  - (if isoweekday ⟨year, 1, 1⟩ = 6 ∨ isoweekday ⟨year, 1, 1⟩ = 7 then 1 else 0)
  + (if (year % 4 = 0 ∧ (year % 100 ≠ 0 ∨ year % 400 = 0))
        ∧ (1 ≤ isoweekday ⟨year, 12, 31⟩ ∧ isoweekday ⟨year, 12, 31⟩ ≤ 5)
     then 1 else 0)
  - ((hs.map Prod.snd).filter
      (fun d => 1 ≤ isoweekday d ∧ isoweekday d ≤ 5)).length

/-- Day number `n` counted from March of year `y` (March 1 is `n = 1`),
resolved to a calendar date up to June 30 (`n = 122`); months March..June
have 31, 30, 31, 30 days in every year. -/
def marchDate (y n : Nat) : Date :=
  if n ≤ 31 then ⟨y, 3, n⟩
  else if n ≤ 61 then ⟨y, 4, n - 31⟩
  else if n ≤ 92 then ⟨y, 5, n - 61⟩
  else ⟨y, 6, n - 92⟩

theorem marchDate_year (y n : Nat) : (marchDate y n).year = y := by
  unfold marchDate
  split_ifs <;> rfl

theorem nextDay_marchDate (y n : Nat) (h1 : 1 ≤ n) (h2 : n ≤ 121) :
    nextDay (marchDate y n) = marchDate y (n + 1) := by
  have d3 : daysInMonth y 3 = 31 := rfl
  have d4 : daysInMonth y 4 = 30 := rfl
  have d5 : daysInMonth y 5 = 31 := rfl
  have d6 : daysInMonth y 6 = 30 := rfl
  rcases show n ≤ 30 ∨ n = 31 ∨ (32 ≤ n ∧ n ≤ 60) ∨ n = 61 ∨ (62 ≤ n ∧ n ≤ 91)
      ∨ n = 92 ∨ (93 ≤ n ∧ n ≤ 121) from by omega
    with h | h | h | h | h | h | h
  · rw [show marchDate y n = ⟨y, 3, n⟩ by rw [marchDate, if_pos (by omega)],
      show marchDate y (n + 1) = ⟨y, 3, n + 1⟩ by rw [marchDate, if_pos (by omega)],
      nextDay, if_pos (show n < daysInMonth y 3 by rw [d3]; omega)]
  · subst h
    rw [show marchDate y 31 = ⟨y, 3, 31⟩ by rw [marchDate, if_pos (by omega)],
      show marchDate y 32 = ⟨y, 4, 1⟩ by
        rw [marchDate, if_neg (by omega), if_pos (by omega)],
      nextDay, if_neg (show ¬ 31 < daysInMonth y 3 by rw [d3]; omega),
      if_pos (show (3 : Nat) < 12 by omega)]
  · rw [show marchDate y n = ⟨y, 4, n - 31⟩ by
        rw [marchDate, if_neg (by omega), if_pos (by omega)],
      show marchDate y (n + 1) = ⟨y, 4, n + 1 - 31⟩ by
        rw [marchDate, if_neg (by omega), if_pos (by omega)],
      nextDay, if_pos (show n - 31 < daysInMonth y 4 by rw [d4]; omega)]
    simp [Date.mk.injEq]
    omega
  · subst h
    rw [show marchDate y 61 = ⟨y, 4, 30⟩ by
        rw [marchDate, if_neg (by omega), if_pos (by omega)],
      show marchDate y 62 = ⟨y, 5, 1⟩ by
        rw [marchDate, if_neg (by omega), if_neg (by omega), if_pos (by omega)],
      nextDay, if_neg (show ¬ 30 < daysInMonth y 4 by rw [d4]; omega),
      if_pos (show (4 : Nat) < 12 by omega)]
  · rw [show marchDate y n = ⟨y, 5, n - 61⟩ by
        rw [marchDate, if_neg (by omega), if_neg (by omega), if_pos (by omega)],
      show marchDate y (n + 1) = ⟨y, 5, n + 1 - 61⟩ by
        rw [marchDate, if_neg (by omega), if_neg (by omega), if_pos (by omega)],
      nextDay, if_pos (show n - 61 < daysInMonth y 5 by rw [d5]; omega)]
    simp [Date.mk.injEq]
    omega
  · subst h
    rw [show marchDate y 92 = ⟨y, 5, 31⟩ by
        rw [marchDate, if_neg (by omega), if_neg (by omega), if_pos (by omega)],
      show marchDate y 93 = ⟨y, 6, 1⟩ by
        rw [marchDate, if_neg (by omega), if_neg (by omega), if_neg (by omega)],
      nextDay, if_neg (show ¬ 31 < daysInMonth y 5 by rw [d5]; omega),
      if_pos (show (5 : Nat) < 12 by omega)]
  · rw [show marchDate y n = ⟨y, 6, n - 92⟩ by
        rw [marchDate, if_neg (by omega), if_neg (by omega), if_neg (by omega)],
      show marchDate y (n + 1) = ⟨y, 6, n + 1 - 92⟩ by
        rw [marchDate, if_neg (by omega), if_neg (by omega), if_neg (by omega)],
      nextDay, if_pos (show n - 92 < daysInMonth y 6 by rw [d6]; omega)]
    simp [Date.mk.injEq]
    omega

theorem prevDay_marchDate (y n : Nat) (h1 : 2 ≤ n) (h2 : n ≤ 122) :
    prevDay (marchDate y n) = marchDate y (n - 1) := by
  have d3 : daysInMonth y 3 = 31 := rfl
  have d4 : daysInMonth y 4 = 30 := rfl
  have d5 : daysInMonth y 5 = 31 := rfl
  rcases show (2 ≤ n ∧ n ≤ 31) ∨ n = 32 ∨ (33 ≤ n ∧ n ≤ 61) ∨ n = 62
      ∨ (63 ≤ n ∧ n ≤ 92) ∨ n = 93 ∨ (94 ≤ n ∧ n ≤ 122) from by omega
    with h | h | h | h | h | h | h
  · rw [show marchDate y n = ⟨y, 3, n⟩ by rw [marchDate, if_pos (by omega)],
      show marchDate y (n - 1) = ⟨y, 3, n - 1⟩ by rw [marchDate, if_pos (by omega)],
      prevDay, if_pos (show 1 < n by omega)]
  · subst h
    rw [show marchDate y 32 = ⟨y, 4, 1⟩ by
        rw [marchDate, if_neg (by omega), if_pos (by omega)],
      show marchDate y 31 = ⟨y, 3, 31⟩ by rw [marchDate, if_pos (by omega)],
      prevDay, if_neg (show ¬ (1 : Nat) < 1 by omega),
      if_pos (show (1 : Nat) < 4 by omega)]
    simp [Date.mk.injEq, d3]
  · rw [show marchDate y n = ⟨y, 4, n - 31⟩ by
        rw [marchDate, if_neg (by omega), if_pos (by omega)],
      show marchDate y (n - 1) = ⟨y, 4, n - 1 - 31⟩ by
        rw [marchDate, if_neg (by omega), if_pos (by omega)],
      prevDay, if_pos (show 1 < n - 31 by omega)]
    simp [Date.mk.injEq]
    omega
  · subst h
    rw [show marchDate y 62 = ⟨y, 5, 1⟩ by
        rw [marchDate, if_neg (by omega), if_neg (by omega), if_pos (by omega)],
      show marchDate y 61 = ⟨y, 4, 30⟩ by
        rw [marchDate, if_neg (by omega), if_pos (by omega)],
      prevDay, if_neg (show ¬ (1 : Nat) < 1 by omega),
      if_pos (show (1 : Nat) < 5 by omega)]
    simp [Date.mk.injEq, d4]
  · rw [show marchDate y n = ⟨y, 5, n - 61⟩ by
        rw [marchDate, if_neg (by omega), if_neg (by omega), if_pos (by omega)],
      show marchDate y (n - 1) = ⟨y, 5, n - 1 - 61⟩ by
        rw [marchDate, if_neg (by omega), if_neg (by omega), if_pos (by omega)],
      prevDay, if_pos (show 1 < n - 61 by omega)]
    simp [Date.mk.injEq]
    omega
  · subst h
    rw [show marchDate y 93 = ⟨y, 6, 1⟩ by
        rw [marchDate, if_neg (by omega), if_neg (by omega), if_neg (by omega)],
      show marchDate y 92 = ⟨y, 5, 31⟩ by
        rw [marchDate, if_neg (by omega), if_neg (by omega), if_pos (by omega)],
      prevDay, if_neg (show ¬ (1 : Nat) < 1 by omega),
      if_pos (show (1 : Nat) < 6 by omega)]
    simp [Date.mk.injEq, d5]
  · rw [show marchDate y n = ⟨y, 6, n - 92⟩ by
        rw [marchDate, if_neg (by omega), if_neg (by omega), if_neg (by omega)],
      show marchDate y (n - 1) = ⟨y, 6, n - 1 - 92⟩ by
        rw [marchDate, if_neg (by omega), if_neg (by omega), if_neg (by omega)],
      prevDay, if_pos (show 1 < n - 92 by omega)]
    simp [Date.mk.injEq]
    omega

theorem addDays_marchDate (y : Nat) :
    ∀ (k n : Nat), 1 ≤ n → n + k ≤ 122 →
      addDays (marchDate y n) k = marchDate y (n + k) := by
  intro k
  induction k with
  | zero => intro n _ _; rfl
  | succ k ih =>
    intro n h1 h2
    show addDays (nextDay (marchDate y n)) k = _
    rw [nextDay_marchDate y n h1 (by omega), ih (n + 1) (by omega) (by omega)]
    congr 1
    omega

theorem subDays_marchDate (y : Nat) :
    ∀ (k n : Nat), k + 1 ≤ n → n ≤ 122 →
      subDays (marchDate y n) k = marchDate y (n - k) := by
  intro k
  induction k with
  | zero => intro n _ _; rfl
  | succ k ih =>
    intro n h1 h2
    show subDays (prevDay (marchDate y n)) k = _
    rw [prevDay_marchDate y n (by omega) h2, ih (n - 1) (by omega) (by omega)]
    congr 1
    omega

theorem easter_eq_marchDate (y : Nat) :
    get_easter_sunday y = marchDate y (easterOs y).toNat := by
  have hb := easterOs_bounds y
  unfold get_easter_sunday marchDate
  dsimp only
  split_ifs <;> simp_all [Date.mk.injEq] <;> omega

theorem isoweekday_bounds (d : Date) : 1 ≤ isoweekday d ∧ isoweekday d ≤ 7 := by
  unfold isoweekday
  omega

theorem isoweekday_nov (y e : Nat) :
    isoweekday ⟨y, 11, e⟩
      = (daysBeforeYear y + daysBeforeMonth y 11 + e - 1) % 7 + 1 := rfl

theorem find_ite {α : Type} (c : Prop) [Decidable c] (p : α → Bool) (l l' : List α) :
    List.find? p (if c then l else l') = if c then List.find? p l else List.find? p l' := by
  split <;> rfl

theorem any_ite {α : Type} (c : Prop) [Decidable c] (p : α → Bool) (l l' : List α) :
    List.any (if c then l else l') p = if c then List.any l p else List.any l' p := by
  split <;> rfl

theorem repentance_key (y : Nat) :
    ∀ p ∈ repentanceEntries y, p.1 = "repentance and prayer" := by
  intro p hp
  simp only [repentanceEntries, List.mem_filterMap, List.mem_range] at hp
  obtain ⟨i, _, he⟩ := hp
  split at he
  · cases he; rfl
  · cases he

theorem repentance_year (y : Nat) : ∀ p ∈ repentanceEntries y, p.2.year = y := by
  intro p hp
  simp only [repentanceEntries, List.mem_filterMap, List.mem_range] at hp
  obtain ⟨i, _, he⟩ := hp
  split at he
  · cases he; rfl
  · cases he

theorem repentance_find_other (y : Nat) (nm : String)
    (h : nm ≠ "repentance and prayer") :
    List.find? (fun p => p.1 == nm) (repentanceEntries y) = none := by
  rw [List.find?_eq_none]
  intro p hp
  have := repentance_key y p hp
  simp [this, h.symm]

theorem filterMap_singleton_of_unique {α β : Type} (f : α → Option β) :
    ∀ (l : List α), l.Nodup → ∀ a b, a ∈ l → f a = some b →
      (∀ x ∈ l, x ≠ a → f x = none) → l.filterMap f = [b] := by
  intro l
  induction l with
  | nil => intro _ a b ha; cases ha
  | cons hd tl ih =>
    intro hnd a b ha hfa hothers
    rcases List.mem_cons.1 ha with rfl | ha
    · rw [List.filterMap_cons, hfa]
      have htl : tl.filterMap f = [] := by
        rw [List.filterMap_eq_nil_iff]
        intro x hx
        exact hothers x (List.mem_cons_of_mem _ hx)
          (fun hxa => (List.nodup_cons.1 hnd).1 (hxa ▸ hx))
      rw [htl]
    · have hhd : f hd = none := by
        refine hothers hd (List.mem_cons_self _ _) (fun hha => ?_)
        exact (List.nodup_cons.1 hnd).1 (hha ▸ ha)
      rw [List.filterMap_cons, hhd]
      exact ih (List.nodup_cons.1 hnd).2 a b ha hfa
        (fun x hx hxa => hothers x (List.mem_cons_of_mem _ hx) hxa)

theorem repentance_singleton (y : Nat) :
    ∃ d, 16 ≤ d ∧ d ≤ 22 ∧ isoweekday ⟨y, 11, d⟩ = 3 ∧
      (∀ e, 16 ≤ e → e ≤ 22 → isoweekday ⟨y, 11, e⟩ = 3 → e = d) ∧
      repentanceEntries y = [("repentance and prayer", ⟨y, 11, d⟩)] := by
  set B := daysBeforeYear y + daysBeforeMonth y 11 with hB
  have hwd : ∀ e : Nat, isoweekday ⟨y, 11, e⟩ = (B + e - 1) % 7 + 1 :=
    fun e => isoweekday_nov y e
  set j0 : Nat := (9 - (B + 15) % 7) % 7 with hj0
  have hj0lt : j0 < 7 := by omega
  have hwj0 : isoweekday ⟨y, 11, 16 + j0⟩ = 3 := by
    rw [hwd]
    omega
  have huniq : ∀ e, 16 ≤ e → e ≤ 22 → isoweekday ⟨y, 11, e⟩ = 3 → e = 16 + j0 := by
    intro e he1 he2 hwe
    rw [hwd] at hwe
    omega
  refine ⟨16 + j0, by omega, by omega, hwj0, huniq, ?_⟩
  apply filterMap_singleton_of_unique _ _ (List.nodup_range 7) j0 _
    (List.mem_range.2 hj0lt)
  · rw [if_pos hwj0]
  · intro x hx hxne
    rw [if_neg]
    intro hwx
    have hx7 := List.mem_range.1 hx
    exact hxne (by
      have := huniq (16 + x) (by omega) (by omega) hwx
      omega)

/-- C1: the Easter calculator reproduces the known reference dates exactly:
`get_easter_sunday 2000` is April 23 2000, `get_easter_sunday 2024` is
March 31 2024, and `get_easter_sunday 2025` is April 20 2025. -/
theorem easter_reference_dates :
    get_easter_sunday 2000 = ⟨2000, 4, 23⟩ ∧
    get_easter_sunday 2024 = ⟨2024, 3, 31⟩ ∧
    get_easter_sunday 2025 = ⟨2025, 4, 20⟩ := by
  decide

/-- C2: for every year and every state argument (any valid code, and also
no state at all), the built holiday set contains the nine state-independent
holidays with their specified dates: New Year Jan 1, Labor Day May 1,
German Unification Day Oct 3, First and Second Christmas Day Dec 25/26,
Good Friday = Easter - 2, Easter Monday = Easter + 1, Ascension =
Easter + 39, Whit Monday = Easter + 50. -/
theorem common_holidays_always_present (y : Nat) (st : Option String) :
    lookupHoliday (buildHolidays y st) "new year" = some ⟨y, 1, 1⟩ ∧
    lookupHoliday (buildHolidays y st) "labor day" = some ⟨y, 5, 1⟩ ∧
    lookupHoliday (buildHolidays y st) "german unification day" = some ⟨y, 10, 3⟩ ∧
    lookupHoliday (buildHolidays y st) "first christmas holiday" = some ⟨y, 12, 25⟩ ∧
    lookupHoliday (buildHolidays y st) "second christmas holiday" = some ⟨y, 12, 26⟩ ∧
    lookupHoliday (buildHolidays y st) "good friday"
      = some (subDays (get_easter_sunday y) 2) ∧
    lookupHoliday (buildHolidays y st) "easter monday"
      = some (addDays (get_easter_sunday y) 1) ∧
    lookupHoliday (buildHolidays y st) "ascention"
      = some (addDays (get_easter_sunday y) 39) ∧
    lookupHoliday (buildHolidays y st) "whit monday"
      = some (addDays (get_easter_sunday y) 50) := by
  refine ⟨?_, ?_, ?_, ?_, ?_, ?_, ?_, ?_, ?_⟩ <;>
  · simp only [buildHolidays, lookupHoliday, List.find?_append, find_ite,
      List.find?_cons, List.find?_nil]
    simp

/-- C6 (bug witness): `__getitem__` reads `self._holidays["item"]` with the
key as a string literal, so looking up the present name `new year` on the
2024 holiday set yields a `KeyError` (`none` in this embedding), although
membership succeeds and `items()` stores Jan 1 2024 under that name. -/
theorem getitem_looks_up_literal_item :
    getitemHoliday (buildHolidays 2024 none) "new year" = none ∧
    containsHoliday (buildHolidays 2024 none) "new year" = true ∧
    lookupHoliday (buildHolidays 2024 none) "new year" = some ⟨2024, 1, 1⟩ := by
  decide

set_option maxRecDepth 4000 in
/-- C9: for every year from 1900 to 2100 the date returned by
`get_easter_sunday` falls on a Sunday (`isoweekday = 7`). -/
theorem easter_sunday_is_sunday (y : Nat) (h1 : 1900 ≤ y) (h2 : y ≤ 2100) :
    isoweekday (get_easter_sunday y) = 7 := by
  have H : ∀ i < 201, isoweekday (get_easter_sunday (1900 + i)) = 7 := by decide
  have := H (y - 1900) (by omega)
  rwa [Nat.add_sub_cancel' h1] at this

/-- Witness for C9 at the concrete year 2000. -/
theorem easter_sunday_is_sunday_witness :
    1900 ≤ 2000 ∧ 2000 ≤ 2100 ∧ isoweekday (get_easter_sunday 2000) = 7 :=
  ⟨by decide, by decide, easter_sunday_is_sunday 2000 (by decide) (by decide)⟩

/-- C3: for every year and state, the working-day count of the source equals
the spec formula: 261, minus 1 when Jan 1 is Saturday or Sunday, plus 1 when
the year is leap (explicit predicate) and Dec 31 is a weekday, minus 1 for
every holiday in the set whose date falls on a weekday. -/
theorem working_days_match_spec_formula (y : Nat) (st : Option String) :
    get_working_days y (buildHolidays y st) = specWorkingDays y (buildHolidays y st) := by
  have hb31 := isoweekday_bounds ⟨y, 12, 31⟩
  have hleap1 : (29 ≤ daysInMonth y 2) ↔ isLeap y = true := by
    unfold daysInMonth
    rw [if_pos rfl]
    cases h : isLeap y <;> simp
  have hleap : (29 ≤ daysInMonth y 2) ↔ (y % 4 = 0 ∧ (y % 100 ≠ 0 ∨ y % 400 = 0)) := by
    rw [hleap1]
    simp [isLeap]
  unfold get_working_days specWorkingDays get_all
  dsimp only
  have hfil : List.filter (fun d => decide (1 ≤ isoweekday d ∧ isoweekday d ≤ 5))
        ((buildHolidays y st).map Prod.snd)
      = List.filter (fun d => decide (isoweekday d < 6))
        ((buildHolidays y st).map Prod.snd) := by
    apply List.filter_congr
    intro d _
    have := isoweekday_bounds d
    exact decide_eq_decide.mpr (by omega)
  rw [hfil]
  simp only [
    show (isoweekday ⟨y, 1, 1⟩ = 6 ∨ isoweekday ⟨y, 1, 1⟩ = 7)
        ↔ (isoweekday ⟨y, 1, 1⟩ ≥ 6) from by
      have hb1 := isoweekday_bounds ⟨y, 1, 1⟩
      omega,
    show ((y % 4 = 0 ∧ (y % 100 ≠ 0 ∨ y % 400 = 0))
          ∧ (1 ≤ isoweekday ⟨y, 12, 31⟩ ∧ isoweekday ⟨y, 12, 31⟩ ≤ 5))
        ↔ (29 ≤ daysInMonth y 2 ∧ isoweekday ⟨y, 12, 31⟩ < 6) from by
      constructor
      · rintro ⟨ha, hb⟩
        exact ⟨hleap.mpr ha, by omega⟩
      · rintro ⟨ha, hb⟩
        exact ⟨hleap.mp ha, by omega⟩]
  split_ifs <;> omega

theorem length_filter_map_snd {α β : Type} (p : β → Bool) :
    ∀ l : List (α × β),
      ((l.map Prod.snd).filter p).length = (l.filter (fun x => p x.2)).length := by
  intro l
  induction l with
  | nil => rfl
  | cons h t ih => by_cases hp : p h.2 <;> simp [List.filter_cons, hp, ih]

/-- Boolean equality of dates (agrees with `=`, see `dateEqb_iff`). -/
def dateEqb (a b : Date) : Bool :=
  a.year == b.year && a.month == b.month && a.day == b.day

theorem dateEqb_iff (a b : Date) : dateEqb a b = true ↔ a = b := by
  cases a
  cases b
  simp [dateEqb, Date.mk.injEq, and_assoc]

/-- List of distinct dates occurring in the input (each date kept once), so
its length is the number of distinct dates. -/
def dedupDates : List Date → List Date
  | [] => []
  | d :: rest =>
    if rest.any (dateEqb d) then dedupDates rest else d :: dedupDates rest

set_option maxRecDepth 10000 in
set_option maxHeartbeats 1000000 in
/-- C4 (counterexample): in 2008 Ascension falls on May 1, the same date as
Labor Day, and that Thursday is subtracted twice by `get_working_days`; so
the count does not equal the base adjusted by the number of distinct weekday
holiday dates, refuting "each calendar date reduces the count by at most
1". -/
theorem working_days_dedup_counterexample :
    ¬ (get_working_days 2008 (buildHolidays 2008 none)
        = baseWorkdays 2008
          - ((dedupDates ((get_all (buildHolidays 2008 none)).filter
                (fun d => isoweekday d < 6))).length : Int)) := by
  decide

/-- C4 (amended): `get_working_days` subtracts exactly one per holiday NAME
whose date falls on a weekday, and zero for names whose date falls on a
weekend; two distinct names sharing one date are each subtracted (for
example Ascension and Labor Day both on May 1 2008). -/
theorem working_days_subtract_once_per_name (y : Nat) (st : Option String) :
    get_working_days y (buildHolidays y st)
      = baseWorkdays y
        - (((buildHolidays y st).filter
              (fun p => isoweekday p.2 < 6)).length : Int) := by
  unfold get_working_days baseWorkdays get_all
  dsimp only
  rw [length_filter_map_snd]

/-- C5 (counterexample): for the empty-string state the claimed
equivalence "an exception is raised iff the normalized state is not a
valid code" fails: `""` is not a valid code, yet construction succeeds
(Python treats the empty string as falsy and swallows it as no state). -/
theorem empty_state_counterexample :
    ¬ (((mkHolidays 2024 (some "")).isOk = false)
        ↔ pyUpper "" ∉ validStateCodes) := by
  decide

/-- C5 (amended): for an ASCII state argument (Python uppercases ASCII
character-wise, so the model is exact there; non-ASCII strings can reach
valid codes through Unicode case mappings such as ı to I), construction
fails with `UnknownStateCodeException` iff the state argument is non-null,
NON-EMPTY, and its uppercase form is not one of the 16 recognized codes;
the empty string is treated like an absent state.  On error no holiday set
is produced (the `Except` carries none). -/
theorem unknown_state_code_iff (y : Nat) (state : Option String)
    (hascii : ∀ s, state = some s → ∀ c ∈ s.data, c.toNat ≤ 127) :
    (mkHolidays y state).isOk = false
      ↔ ∃ s, state = some s ∧ s ≠ "" ∧ pyUpper s ∉ validStateCodes := by
  cases state with
  | none => simp [mkHolidays, normState, Except.isOk, Except.toBool]
  | some s =>
    by_cases h0 : s = ""
    · subst h0
      simp [mkHolidays, normState, Except.isOk, Except.toBool]
    · by_cases hv : pyUpper s ∈ validStateCodes <;>
        simp [mkHolidays, normState, h0, hv, Except.isOk, Except.toBool]

/-- Witness for the amended C5 at year 2024 and the invalid ASCII state
string `xx`. -/
theorem unknown_state_code_iff_witness :
    (mkHolidays 2024 (some "xx")).isOk = false
      ↔ ∃ s, (some "xx" : Option String) = some s ∧ s ≠ ""
          ∧ pyUpper s ∉ validStateCodes :=
  unknown_state_code_iff 2024 (some "xx") (by
    intro s hs
    cases hs
    decide)

/-- C7: state-conditional holidays follow the fixed inclusion table: for
every year and every state string, each of Epiphany (Jan 6), Womens Day
(Mar 8), Easter Sunday (Easter + 0), Whit Sunday (Easter + 49), Assumption
(Aug 15), Reformation Day (Oct 31), All Saints (Nov 1) and Corpus Christi
(Easter + 60) is present, with its table date, exactly when the state is in
its listed state set; in particular BE has Womens Day and BW does not. -/
theorem state_conditional_holidays (y : Nat) (s : String) :
    lookupHoliday (buildHolidays y (some s)) "epiphany"
      = (if s ∈ ["BY", "BW", "ST"] then some ⟨y, 1, 6⟩ else none) ∧
    lookupHoliday (buildHolidays y (some s)) "womens day"
      = (if s ∈ ["BE"] then some ⟨y, 3, 8⟩ else none) ∧
    lookupHoliday (buildHolidays y (some s)) "easter sunday"
      = (if s ∈ ["BB"] then some (get_easter_sunday y) else none) ∧
    lookupHoliday (buildHolidays y (some s)) "whit_sunday"
      = (if s ∈ ["BB"] then some (addDays (get_easter_sunday y) 49) else none) ∧
    lookupHoliday (buildHolidays y (some s)) "assumption"
      = (if s ∈ ["BY", "SL"] then some ⟨y, 8, 15⟩ else none) ∧
    lookupHoliday (buildHolidays y (some s)) "reformation day"
      = (if s ∈ ["BB", "HB", "HH", "MV", "NI", "SN", "ST", "SH", "TH"]
         then some ⟨y, 10, 31⟩ else none) ∧
    lookupHoliday (buildHolidays y (some s)) "all saints"
      = (if s ∈ ["BW", "BY", "NW", "RP", "SL"] then some ⟨y, 11, 1⟩ else none) ∧
    lookupHoliday (buildHolidays y (some s)) "corpus christi"
      = (if s ∈ ["BW", "BY", "HE", "NW", "RP", "SL"]
         then some (addDays (get_easter_sunday y) 60) else none) := by
  refine ⟨?_, ?_, ?_, ?_, ?_, ?_, ?_, ?_⟩ <;>
  · simp only [buildHolidays, lookupHoliday, List.find?_append, find_ite,
      List.find?_cons, List.find?_nil]
    generalize subDays (get_easter_sunday y) 2 = D2
    generalize addDays (get_easter_sunday y) 1 = A1
    generalize addDays (get_easter_sunday y) 39 = A39
    generalize addDays (get_easter_sunday y) 49 = A49
    generalize addDays (get_easter_sunday y) 50 = A50
    generalize addDays (get_easter_sunday y) 60 = A60
    generalize get_easter_sunday y = E
    simp [repentance_find_other]

/-- C8: for every year, the built set for state SN contains Repentance and
Prayer on a date that is a Wednesday within November 16-22, that date is
the unique Wednesday in the window, and for every other valid state the
holiday is simply absent (construction raises nothing, see
`unknown_state_code_iff`). -/
theorem repentance_and_prayer_properties (y : Nat) :
    ∃ d, 16 ≤ d ∧ d ≤ 22 ∧ isoweekday ⟨y, 11, d⟩ = 3 ∧
      lookupHoliday (buildHolidays y (some "SN")) "repentance and prayer"
        = some ⟨y, 11, d⟩ ∧
      (∀ e, 16 ≤ e → e ≤ 22 → isoweekday ⟨y, 11, e⟩ = 3 → e = d) ∧
      (∀ s, s ∈ validStateCodes → s ≠ "SN" →
        containsHoliday (buildHolidays y (some s)) "repentance and prayer"
          = false) := by
  obtain ⟨d, h16, h22, hw, huniq, hrep⟩ := repentance_singleton y
  refine ⟨d, h16, h22, hw, ?_, huniq, ?_⟩
  · simp only [buildHolidays, lookupHoliday, List.find?_append, find_ite,
      List.find?_cons, List.find?_nil]
    generalize subDays (get_easter_sunday y) 2 = D2
    generalize addDays (get_easter_sunday y) 1 = A1
    generalize addDays (get_easter_sunday y) 39 = A39
    generalize addDays (get_easter_sunday y) 50 = A50
    simp [hrep]
  · intro s hs hne
    simp only [validStateCodes, List.mem_cons, List.not_mem_nil, or_false] at hs
    rcases hs with rfl | rfl | rfl | rfl | rfl | rfl | rfl | rfl | rfl | rfl
      | rfl | rfl | rfl | rfl | rfl | rfl <;>
      first
        | exact absurd rfl hne
        | (simp only [buildHolidays, containsHoliday, List.any_append, any_ite,
             List.any_cons, List.any_nil]
           simp)

theorem mem_of_mem_ite_nil {α : Type} {c : Prop} [Decidable c] {l : List α} {x : α}
    (h : x ∈ if c then l else []) : x ∈ l := by
  split at h
  · exact h
  · cases h

/-- C10: every date stored in a built holiday set has its year component
equal to the query year, for every year and every state argument (fixed
dates are built in year `y` directly, and all Easter-relative offsets stay
between March 20 and June 30 of the same year). -/
theorem holiday_dates_in_query_year (y : Nat) (st : Option String) :
    ∀ p ∈ buildHolidays y st, p.2.year = y := by
  intro p hp
  have hos := easterOs_bounds y
  have hes := easter_eq_marchDate y
  have hN : 22 ≤ (easterOs y).toNat ∧ (easterOs y).toNat ≤ 57 := by omega
  unfold buildHolidays at hp
  dsimp only at hp
  rw [List.mem_append] at hp
  rcases hp with hp | hp
  · simp only [List.mem_cons, List.not_mem_nil, or_false] at hp
    rcases hp with rfl | rfl | rfl | rfl | rfl | rfl | rfl | rfl | rfl
    · rfl
    · rfl
    · rfl
    · rfl
    · rfl
    · show (subDays (get_easter_sunday y) 2).year = y
      rw [hes, subDays_marchDate y 2 _ (by omega) (by omega), marchDate_year]
    · show (addDays (get_easter_sunday y) 1).year = y
      rw [hes, addDays_marchDate y 1 _ (by omega) (by omega), marchDate_year]
    · show (addDays (get_easter_sunday y) 39).year = y
      rw [hes, addDays_marchDate y 39 _ (by omega) (by omega), marchDate_year]
    · show (addDays (get_easter_sunday y) 50).year = y
      rw [hes, addDays_marchDate y 50 _ (by omega) (by omega), marchDate_year]
  · cases st with
    | none => cases hp
    | some s =>
      simp only [List.mem_append] at hp
      rcases hp with ((((((((hp | hp) | hp) | hp) | hp) | hp) | hp) | hp) | hp)
      · have hp2 := mem_of_mem_ite_nil hp
        rcases List.mem_singleton.1 hp2 with rfl
        rfl
      · have hp2 := mem_of_mem_ite_nil hp
        rcases List.mem_singleton.1 hp2 with rfl
        rfl
      · have hp2 := mem_of_mem_ite_nil hp
        rcases List.mem_singleton.1 hp2 with rfl
        show (get_easter_sunday y).year = y
        rw [hes, marchDate_year]
      · have hp2 := mem_of_mem_ite_nil hp
        rcases List.mem_singleton.1 hp2 with rfl
        show (addDays (get_easter_sunday y) 49).year = y
        rw [hes, addDays_marchDate y 49 _ (by omega) (by omega), marchDate_year]
      · have hp2 := mem_of_mem_ite_nil hp
        rcases List.mem_singleton.1 hp2 with rfl
        rfl
      · have hp2 := mem_of_mem_ite_nil hp
        rcases List.mem_singleton.1 hp2 with rfl
        rfl
      · have hp2 := mem_of_mem_ite_nil hp
        rcases List.mem_singleton.1 hp2 with rfl
        rfl
      · exact repentance_year y p (mem_of_mem_ite_nil hp)
      · have hp2 := mem_of_mem_ite_nil hp
        rcases List.mem_singleton.1 hp2 with rfl
        show (addDays (get_easter_sunday y) 60).year = y
        rw [hes, addDays_marchDate y 60 _ (by omega) (by omega), marchDate_year]

/-- Witness for C10 at year 2024 with no state, on the New Year entry. -/
theorem holiday_dates_in_query_year_witness :
    ("new year", (⟨2024, 1, 1⟩ : Date)) ∈ buildHolidays 2024 none ∧
    (⟨2024, 1, 1⟩ : Date).year = 2024 :=
  ⟨by decide,
   holiday_dates_in_query_year 2024 none ("new year", ⟨2024, 1, 1⟩) (by decide)⟩

/-- Witness for C8 at year 2025: instantiating the inner quantifier at the
valid state BW shows the repentance holiday absent there. -/
theorem repentance_and_prayer_properties_witness :
    ("BW" ∈ validStateCodes ∧ "BW" ≠ "SN") ∧
    containsHoliday (buildHolidays 2025 (some "BW")) "repentance and prayer"
      = false := by
  obtain ⟨d, _, _, _, _, _, habs⟩ := repentance_and_prayer_properties 2025
  exact ⟨⟨by decide, by decide⟩, habs "BW" (by decide) (by decide)⟩
